import Mathlib

/-!
Verification of the nb2plots rendering core against its design description.

The definitions below are a shallow embedding of `nb2plots/doctree2md.py`
and `nb2plots/doctree2nb.py`.  Mutable translator objects become explicit
state records (`MdState`, `NbState`); Python lists that are appended to in
place become Lean lists extended on the right; methods that can raise
`IndexError` (popping or indexing an empty list) return `Option`.
Python strings are modelled as Lean `String`s (sequences of unicode code
points, as in Python 3).

Definitions whose names end in `Spec` are worded after the design
document rather than the source; theorems compare them with the source
embedding.
-/

/-! ## Python string primitives used by the source -/

/-- ASCII whitespace, as recognised by Python `str.strip()` with no
argument (space, tab, newline, carriage return, vertical tab, form feed). -/
def isPySpace (c : Char) : Bool :=
  c = ' ' || c = '\t' || c = '\n' || c = '\r' || c = '\x0b' || c = '\x0c'

/-- Python `str.strip()` on a character list. -/
def pyStripL (cs : List Char) : List Char :=
  ((cs.dropWhile isPySpace).reverse.dropWhile isPySpace).reverse

/-- Python `str.strip()`: drop leading and trailing whitespace. -/
def pyStrip (s : String) : String :=
  String.mk (pyStripL s.toList)

/-- Line-boundary characters of Python `str.splitlines` (the common ones:
LF, CR, VT, FF, FS, GS, RS, NEL, LINE SEPARATOR, PARAGRAPH SEPARATOR;
CR LF is treated as a single boundary by the splitter below). -/
def isLineBreakChar (c : Char) : Bool :=
  c = '\n' || c = '\r' || c = '\x0b' || c = '\x0c' ||
  c = '\x1c' || c = '\x1d' || c = '\x1e' || c = '\x85' ||
  c = '\u2028' || c = '\u2029'

/-- Worker for Python `str.splitlines(keepends)`.  `acc` holds the
current line, reversed.  A CR immediately followed by LF ends one line. -/
def splitlinesAux (keepends : Bool) : List Char → List Char → List (List Char)
  | [], acc => if acc.isEmpty then [] else [acc.reverse]
  | '\r' :: '\n' :: rest, acc =>
    (acc.reverse ++ (if keepends then ['\r', '\n'] else [])) ::
      splitlinesAux keepends rest []
  | '\r' :: rest, acc =>
    (acc.reverse ++ (if keepends then ['\r'] else [])) ::
      splitlinesAux keepends rest []
  | c :: rest, acc =>
    if isLineBreakChar c then
      (acc.reverse ++ (if keepends then [c] else [])) ::
        splitlinesAux keepends rest []
    else
      splitlinesAux keepends rest (c :: acc)

/-- Python `str.splitlines(True)`: split into lines, keeping terminators. -/
def splitlinesKeep (s : String) : List String :=
  (splitlinesAux true s.toList []).map String.mk

/-- Python `str.splitlines()`: split into lines, dropping terminators. -/
def pySplitlines (s : String) : List String :=
  (splitlinesAux false s.toList []).map String.mk

/-- Worker for splitting on `'\n'` exactly (Python `str.split('\n')`);
used where the source's regular expressions treat only LF as a line
separator. -/
def splitNlAux : List Char → List Char → List String
  | [], acc => [String.mk acc.reverse]
  | c :: rest, acc =>
    if c = '\n' then String.mk acc.reverse :: splitNlAux rest []
    else splitNlAux rest (c :: acc)

/-- Python `str.split('\n')`. -/
def splitNl (s : String) : List String :=
  splitNlAux s.toList []

/-- Does the string end in a line feed?  Models Python `s[-1] == '\n'`
guarded by non-emptiness. -/
def endsWithNl (s : String) : Bool :=
  s.toList.getLast? = some '\n'

/-- Worker for Python `str.expandtabs()` with the default tab size 8:
`col` is the current column; a tab becomes spaces up to the next multiple
of 8; newline and carriage return reset the column. -/
def expandtabsAux : List Char → Nat → List Char
  | [], _ => []
  | c :: rest, col =>
    if c = '\t' then
      let incr := 8 - col % 8
      List.replicate incr ' ' ++ expandtabsAux rest (col + incr)
    else if c = '\n' || c = '\r' then
      c :: expandtabsAux rest 0
    else
      c :: expandtabsAux rest (col + 1)

/-- Python `str.expandtabs()` (tab size 8). -/
def expandtabs (s : String) : String :=
  String.mk (expandtabsAux s.toList 0)

/-- Longest common prefix of two character lists.  This is what CPython's
`textwrap.dedent` margin loop computes for each pair of indents. -/
def commonPrefixL : List Char → List Char → List Char
  | x :: xs, y :: ys => if x = y then x :: commonPrefixL xs ys else []
  | _, _ => []

/-- Is the line (which contains no `'\n'`) made of one or more
space/tab characters only?  CPython dedent's `^[ \t]+$` test. -/
def isWsOnlyLine (l : String) : Bool :=
  !l.toList.isEmpty && l.toList.all (fun c => c = ' ' || c = '\t')

/-- Leading space/tab run of a line. -/
def leadingWsTabs (l : String) : List Char :=
  l.toList.takeWhile (fun c => c = ' ' || c = '\t')

/-- CPython `textwrap.dedent`: blank (space/tab-only) lines are emptied;
the longest common leading space/tab margin of the remaining non-empty
lines is computed and removed from the start of every line that carries
it. -/
def dedent (text : String) : String :=
  let lines := (splitNl text).map (fun l => if isWsOnlyLine l then "" else l)
  let indents := lines.filterMap (fun l =>
    let ws := leadingWsTabs l
    if ws.length < l.toList.length then some ws else none)
  let margin : List Char :=
    match indents with
    | [] => []
    | i :: is => is.foldl commonPrefixL i
  let out := lines.map (fun l =>
    if margin.isPrefixOf l.toList then String.mk (l.toList.drop margin.length) else l)
  String.intercalate "\n" out

/-! ## `doctree2md.IndentLevel` -/

/-- One indentation level (`doctree2md.IndentLevel`).  The Python object
also stores `base`, the list it writes to when finished; here the base is
recovered from the level's position on the `MdState.indent_levels` stack,
which is where every `base` in the source points. -/
structure IndentLevel where
  /-- `prefix`: text prepended to continuation lines (`prefix` is a Lean
  keyword, hence the shortened field name). -/
  pfx : String
  /-- `first_prefix`: text prepended to the first line. -/
  first_pfx : String
  /-- `content`: fragments appended while the level is active. -/
  content : List String
  deriving DecidableEq

/-- `IndentLevel.write`, as the list of fragments (empty or a singleton)
appended to the level's base: join the content, split into lines keeping
terminators; if there are no lines add nothing, otherwise prepend
`first_prefix` to the first line and `prefix` to later lines, writing
whitespace-only later lines as bare `"\n"`, and join the results into a
single fragment. -/
def IndentLevel.write (lv : IndentLevel) : List String :=
  let string := String.join lv.content
  let lines := splitlinesKeep string
  match lines with
  | [] => []
  | l0 :: rest =>
    [String.join ((lv.first_pfx ++ l0) ::
      rest.map (fun line => if pyStrip line = "" then "\n" else lv.pfx ++ line))]

/-! ## `doctree2md.Translator` state -/

/-- The `_docinfo` mapping of the translator. -/
structure Docinfo where
  title : String
  subtitle : String
  author : List String
  date : String
  copyright : String
  version : String
  deriving DecidableEq

/-- `_docinfo` as initialised by `Translator.reset`. -/
def initDocinfo : Docinfo :=
  { title := "", subtitle := "", author := [], date := "", copyright := "", version := "" }

/-- The three output regions (`head`, `body`, `foot`) of the translator. -/
inductive Region : Type where
  | head
  | body
  | foot
  deriving DecidableEq

/-- Mutable state of `doctree2md.Translator`.  `indent_levels` keeps the
innermost level first (Python appends to and pops from the end of its
list).  `warned` is the `_warned` set (insertion order kept) and
`warnings` records the messages sent to `document.reporter.warning`. -/
structure MdState where
  head : List String
  body : List String
  foot : List String
  section_level : Int
  list_prefixes : List String
  indent_levels : List IndentLevel
  docinfo : Docinfo
  warned : List String
  warnings : List String
  deriving DecidableEq

/-- `Translator.reset`: clear the regions, counters, stacks and docinfo;
`_warned` (set in `__init__`, not in `reset`) survives. -/
def resetMd (st : MdState) : MdState :=
  { st with head := [], body := [], foot := [],
            section_level := 0, list_prefixes := [], indent_levels := [],
            docinfo := initDocinfo }

/-- A translator as built by `Translator.__init__` (which calls `reset`). -/
def initMd : MdState :=
  { head := [], body := [], foot := [], section_level := 0,
    list_prefixes := [], indent_levels := [], docinfo := initDocinfo,
    warned := [], warnings := [] }

/-- Fragments of the current output target (`get_current_output`): the
innermost indent level's content if one is active, else the named region. -/
def MdState.currentFrags (st : MdState) (r : Region) : List String :=
  match st.indent_levels with
  | lv :: _ => lv.content
  | [] =>
    match r with
    | .head => st.head
    | .body => st.body
    | .foot => st.foot

/-- `Translator.add` with an explicit region (every call site in the
source uses the default region `body`): append to the innermost indent
level if any, else to the region. -/
def MdState.addTo (st : MdState) (s : String) (r : Region) : MdState :=
  match st.indent_levels with
  | lv :: rest =>
    { st with indent_levels := { lv with content := lv.content ++ [s] } :: rest }
  | [] =>
    match r with
    | .head => { st with head := st.head ++ [s] }
    | .body => { st with body := st.body ++ [s] }
    | .foot => { st with foot := st.foot ++ [s] }

/-- `Translator.add` with the default section `'body'`. -/
def MdState.add (st : MdState) (s : String) : MdState :=
  st.addTo s .body

/-- `Translator.add_section`: append to the region regardless of any
active indent level. -/
def MdState.add_section (st : MdState) (s : String) (r : Region) : MdState :=
  match r with
  | .head => { st with head := st.head ++ [s] }
  | .body => { st with body := st.body ++ [s] }
  | .foot => { st with foot := st.foot ++ [s] }

/-- `Translator.ensure_eol`: if the current output is non-empty, its last
fragment non-empty and that fragment does not end in `'\n'`, add `"\n"`. -/
def MdState.ensure_eol (st : MdState) : MdState :=
  match (st.currentFrags .body).getLast? with
  | some last => if last ≠ "" && !endsWithNl last then st.add "\n" else st
  | none => st

/-- `Translator.start_level`: push a fresh `IndentLevel`; a missing
`first_prefix` defaults to `prefix` (`IndentLevel.__init__`). -/
def MdState.start_level (st : MdState) (pfx : String) (first_pfx : Option String) : MdState :=
  { st with indent_levels := ⟨pfx, first_pfx.getD pfx, []⟩ :: st.indent_levels }

/-- `Translator.finish_level`: pop the innermost level and write its
processed content to its base - the level below it, or the `body` region
when it was the only level.  Popping an empty stack is the Python
`IndexError`, returned as `none`. -/
def MdState.finish_level (st : MdState) : Option MdState :=
  match st.indent_levels with
  | [] => none
  | lv :: rest =>
    match rest with
    | [] => some { st with indent_levels := [], body := st.body ++ lv.write }
    | lv2 :: rest2 =>
      some { st with
             indent_levels := { lv2 with content := lv2.content ++ lv.write } :: rest2 }

/-- One region list after `Translator.drop_trailing_eols`: pop the last
fragment when it is exactly `"\n"`. -/
def dropTrailingEol (L : List String) : List String :=
  match L.getLast? with
  | some s => if s = "\n" then L.dropLast else L
  | none => L

/-- `Translator.drop_trailing_eols` applied to the three regions. -/
def MdState.drop_trailing_eols (st : MdState) : MdState :=
  { st with head := dropTrailingEol st.head,
            body := dropTrailingEol st.body,
            foot := dropTrailingEol st.foot }

/-- `Translator.astext`: drop trailing bare line breaks, then join
`head + body + foot`.  (The source also keeps the mutated lists; the
string result is all that later code reads before the next `reset`.) -/
def MdState.astext (st : MdState) : String :=
  let st := st.drop_trailing_eols
  String.join (st.head ++ st.body ++ st.foot)

/-- The message `unknown_visit` hands to `document.reporter.warning`. -/
def warnMsg (node_type : String) : String :=
  "The " ++ node_type ++ " element is not supported."

/-- `Translator.unknown_visit` state change: warn once per node type per
translator instance. -/
def MdState.unknown_visit (st : MdState) (node_type : String) : MdState :=
  if node_type ∈ st.warned then st
  else { st with warnings := st.warnings ++ [warnMsg node_type],
                 warned := st.warned ++ [node_type] }

/-- `Translator.visit_title`: at section level 0 write `"# "` straight to
the `head` region and record the title text in `_docinfo`; at deeper
levels add `(section_level + 1)` hash marks and a space to the current
output (Python `'#' * n` is empty for `n ≤ 0`). -/
def MdState.visit_title (st : MdState) (node_text : String) : MdState :=
  if st.section_level = 0 then
    let st := st.add_section "# " .head
    { st with docinfo := { st.docinfo with title := node_text } }
  else
    st.add (String.mk (List.replicate (st.section_level + 1).toNat '#') ++ " ")

/-! ## Document tree nodes

The docutils document tree, restricted to the node kinds the two
translators under study handle (or, for the last group, fail to handle).
`unknown` stands for any docutils element class without a handler; its
string is the class name (`node.__class__.__name__`).  Node kinds whose
classes live outside the two source files (`nbplot_rendered`,
`nbplot_not_rendered`, `only`, `mpl_hint`, `runrole_reference`) are
plain container elements; only their class names and child lists matter
to the code under study. -/

inductive NodeKind : Type where
  | text (s : String)
  | document
  | paragraph
  | section'
  | title
  | bullet_list
  | enumerated_list
  | list_item
  | block_quote
  | literal_block (classes : List String)
  | comment
  | doctest_block
  | nbplot_rendered
  | nbplot_not_rendered
  | only (expr : String)
  | mpl_hint
  | runrole_reference
  | unknown (name : String)

mutual
inductive Node : Type where
  | mk : NodeKind → NodeList → Node
inductive NodeList : Type where
  | nil : NodeList
  | cons : Node → NodeList → NodeList
end

/-- Build a `NodeList` from a list literal. -/
def NodeList.ofList : List Node → NodeList
  | [] => .nil
  | n :: ns => .cons n (NodeList.ofList ns)

/-- `node.__class__.__name__`, as used by `unknown_visit` warnings and by
docutils method dispatch. -/
def kindName : NodeKind → String
  | .text _ => "Text"
  | .document => "document"
  | .paragraph => "paragraph"
  | .section' => "section"
  | .title => "title"
  | .bullet_list => "bullet_list"
  | .enumerated_list => "enumerated_list"
  | .list_item => "list_item"
  | .block_quote => "block_quote"
  | .literal_block _ => "literal_block"
  | .comment => "comment"
  | .doctest_block => "doctest_block"
  | .nbplot_rendered => "nbplot_rendered"
  | .nbplot_not_rendered => "nbplot_not_rendered"
  | .only _ => "only"
  | .mpl_hint => "mpl_hint"
  | .runrole_reference => "runrole_reference"
  | .unknown name => name

/-- docutils `child_text_separator` for `astext`: `TextElement`
subclasses (the text-bearing kinds below) join children with `""`, plain
`Element`s with `"\n\n"`. -/
def childSep : NodeKind → String
  | .text _ => ""
  | .paragraph => ""
  | .title => ""
  | .literal_block _ => ""
  | .comment => ""
  | .doctest_block => ""
  | _ => "\n\n"

mutual
/-- docutils `Node.astext`: a `Text` node is its string; an element joins
its children's texts with its `child_text_separator`. -/
def Node.astext : Node → String
  | .mk (.text s) _ => s
  | .mk k ch => astextJoin (childSep k) ch

/-- Children's `astext`s joined by a separator. -/
def astextJoin (sep : String) : NodeList → String
  | .nil => ""
  | .cons n .nil => n.astext
  | .cons n ns => n.astext ++ sep ++ astextJoin sep ns
end

/-! ## The Markdown translator's per-kind actions

`doctree2md.Translator` visit/depart methods.  A visit action returns the
new state and a flag that is `true` when the method raises
`nodes.SkipNode` (children are then not visited and no depart runs);
`none` models an uncaught `IndexError` (stack misuse).  Kinds without a
method in `doctree2md` fall to `unknown_visit`. -/

/-- The language tag of `visit_literal_block`:
`node['classes'][1] if 'code' in node['classes'] else ''`; indexing a
too-short class list is an error. -/
def literalCodeType (classes : List String) : Option String :=
  if "code" ∈ classes then classes.get? 1 else some ""

/-- Visit actions of `doctree2md.Translator`. -/
def mdVisit (k : NodeKind) (ch : NodeList) (st : MdState) : Option (MdState × Bool) :=
  match k with
  | .text s => some (st.add s, false)
  | .document => some (st, false)
  | .paragraph => some (st, false)
  | .section' => some ({ st with section_level := st.section_level + 1 }, false)
  | .title => some (st.visit_title (astextJoin (childSep .title) ch), false)
  | .bullet_list => some ({ st with list_prefixes := st.list_prefixes ++ ["* "] }, false)
  | .enumerated_list => some ({ st with list_prefixes := st.list_prefixes ++ ["1. "] }, false)
  | .list_item =>
    match st.list_prefixes.getLast? with
    | none => none
    | some fp => some (st.start_level (String.mk (List.replicate fp.length ' ')) (some fp), false)
  | .block_quote => some (st.start_level "> " none, false)
  | .literal_block classes =>
    match literalCodeType classes with
    | none => none
    | some ct => some (st.add ("```" ++ ct ++ "\n"), false)
  | .comment => some (st.add ("<!-- " ++ astextJoin (childSep .comment) ch ++ " -->\n"), true)
  | k => some (st.unknown_visit (kindName k), true)

/-- Depart actions of `doctree2md.Translator` (only reached for kinds
whose visit did not skip). -/
def mdDepart (k : NodeKind) (st : MdState) : Option MdState :=
  match k with
  | .text _ => some st
  | .document => some st
  | .paragraph => some ((st.ensure_eol).add "\n")
  | .section' => some { st with section_level := st.section_level - 1 }
  | .title => some ((st.ensure_eol).add "\n")
  | .bullet_list | .enumerated_list =>
    match st.list_prefixes.getLast? with
    | none => none
    | some _ => some { st with list_prefixes := st.list_prefixes.dropLast }
  | .list_item => st.finish_level
  | .block_quote => st.finish_level
  | .literal_block _ => some ((st.ensure_eol).add "```\n\n")
  | _ => some st

mutual
/-- `document.walkabout` driving `doctree2md.Translator`: visit, then
(unless `SkipNode` was raised) the children in order, then depart. -/
def mdWalk : Node → MdState → Option MdState
  | .mk k ch, st =>
    match mdVisit k ch st with
    | none => none
    | some (st1, true) => some st1
    | some (st1, false) =>
      match mdWalkList ch st1 with
      | none => none
      | some st2 => mdDepart k st2

/-- Walk a child list in document order. -/
def mdWalkList : NodeList → MdState → Option MdState
  | .nil, st => some st
  | .cons n ns, st =>
    match mdWalk n st with
    | none => none
    | some st1 => mdWalkList ns st1
end

/-- Render a tree to Markdown: fresh translator, walkabout, `astext`
(`doctree2md.Writer.translate`). -/
def mdRender (n : Node) : Option String :=
  (mdWalk n initMd).map MdState.astext

/-! ## `doctree2nb`: the transcript parser

`_EXAMPLE_RE` (doctest.py's example regex, `MULTILINE | VERBOSE`) finds,
left to right and non-overlapping, runs of one PS1 line (`^[ ]*>>>.*`)
plus all immediately following PS2 lines (`\n[ ]*\.\.\..*`), each
followed by a `want` run of lines that are neither blank (`[ ]*$`) nor
PS1-starting.  Matches start and end at line boundaries, so `finditer`
is modelled as a one-line-per-step scan over the `'\n'`-split text. -/

/-- A PS1 line: optional spaces then `>>>`. -/
def isPS1 (l : String) : Bool :=
  ['>', '>', '>'].isPrefixOf (l.toList.dropWhile (· = ' '))

/-- A PS2 line: optional spaces then `...`. -/
def isPS2 (l : String) : Bool :=
  ['.', '.', '.'].isPrefixOf (l.toList.dropWhile (· = ' '))

/-- A blank line for the `want` run: spaces only (`[ ]*$`). -/
def isBlankLine (l : String) : Bool :=
  l.toList.all (· = ' ')

/-- Scanner position while replaying `_EXAMPLE_RE.finditer`. -/
inductive ScanMode : Type where
  | scanning
  | source
  | want

/-- Replay of `finditer`: in `source` mode `cur` holds the reversed
source lines of the open example.  A PS2 line extends the source
(greedily, as in the regex); a PS1 line closes the example and opens the
next; a blank line closes source and want alike; any other non-blank
line after the source is `want` and is discarded. -/
def findExamplesAux : List String → ScanMode → List String → List (List String)
  | [], .source, cur => [cur.reverse]
  | [], _, _ => []
  | l :: rest, .scanning, _ =>
    if isPS1 l then findExamplesAux rest .source [l]
    else findExamplesAux rest .scanning []
  | l :: rest, .source, cur =>
    if isPS2 l then findExamplesAux rest .source (l :: cur)
    else if isPS1 l then cur.reverse :: findExamplesAux rest .source [l]
    else if isBlankLine l then cur.reverse :: findExamplesAux rest .scanning []
    else cur.reverse :: findExamplesAux rest .want []
  | l :: rest, .want, _ =>
    if isPS1 l then findExamplesAux rest .source [l]
    else if isBlankLine l then findExamplesAux rest .scanning []
    else findExamplesAux rest .want []

/-- The `source` line groups of all `_EXAMPLE_RE` matches, in order. -/
def findExamples (lines : List String) : List (List String) :=
  findExamplesAux lines .scanning []

/-- One match's contribution in `parse_doctest`:
`indent = len(m.group('indent'))` (the PS1 line's leading spaces), then
`'\n'.join(L[indent + 4:] for L in m.group('source').splitlines())`. -/
def exampleSource (srcLines : List String) : String :=
  let indent := ((srcLines.headD "").toList.takeWhile (· = ' ')).length
  let source_lines := pySplitlines (String.intercalate "\n" srcLines)
  String.intercalate "\n" (source_lines.map (fun L => L.drop (indent + 4)))

/-- `doctree2nb.parse_doctest`: tab-expand and dedent the text, extract
every example's source with the prompt column stripped, join with single
line feeds, discarding all expected output. -/
def parse_doctest (doctest_txt : String) : String :=
  let txt := dedent (expandtabs doctest_txt)
  let parts := (findExamples (splitNl txt)).map exampleSource
  String.intercalate "\n" parts

/-! ## `doctree2nb.Translator` -/

/-- One notebook cell, as handed to the external notebook library
(`nbf.new_markdown_cell` / `nbf.new_code_cell`). -/
inductive Cell : Type where
  | markdown (txt : String)
  | code (txt : String)
  deriving DecidableEq

/-- Mutable state of `doctree2nb.Translator`: the inherited Markdown
translator state, the `_in_nbplot` flag, and the notebook's cell list. -/
structure NbState where
  md : MdState
  in_nbplot : Bool
  cells : List Cell
  deriving DecidableEq

/-- A notebook translator as built by `Translator.__init__`. -/
def initNb : NbState :=
  { md := initMd, in_nbplot := false, cells := [] }

/-- `doctree2nb.Translator.reset`: the base reset plus clearing
`_in_nbplot`.  The cell list is not touched (it lives on `_notebook`). -/
def NbState.reset (st : NbState) : NbState :=
  { st with md := resetMd st.md, in_nbplot := false }

/-- `doctree2nb.Translator.flush_text`: strip the base translator's
`astext`; append it as a Markdown cell when non-empty; reset in either
case. -/
def NbState.flush_text (st : NbState) : NbState :=
  let txt := pyStrip st.md.astext
  let st := if txt = "" then st else { st with cells := st.cells ++ [Cell.markdown txt] }
  st.reset

/-- `doctree2nb.Translator.add_code_block`: flush pending text, then
append a code cell. -/
def NbState.add_code_block (st : NbState) (txt : String) : NbState :=
  let st := st.flush_text
  { st with cells := st.cells ++ [Cell.code txt] }

/-- Visit actions of `doctree2nb.Translator`; kinds it does not override
fall through to the inherited `doctree2md` actions on the `md` field. -/
def nbVisit (k : NodeKind) (ch : NodeList) (st : NbState) : Option (NbState × Bool) :=
  match k with
  | .doctest_block =>
    let doctest_txt := pyStrip (astextJoin (childSep .doctest_block) ch)
    let st := if doctest_txt = "" then st
              else st.add_code_block (parse_doctest doctest_txt)
    some (st, true)
  | .only expr =>
    let st := if expr = "markdown" then
                { st with md := st.md.add (dedent (astextJoin (childSep (.only expr)) ch) ++ "\n") }
              else st
    some (st, true)
  | .nbplot_rendered => some ({ st with in_nbplot := true }, false)
  | .nbplot_not_rendered => some (st, true)
  | .runrole_reference => some (st, true)
  | .literal_block classes =>
    if !st.in_nbplot then
      match mdVisit (.literal_block classes) ch st.md with
      | none => none
      | some (md1, skip) => some ({ st with md := md1 }, skip)
    else
      some (st.add_code_block (astextJoin (childSep (.literal_block classes)) ch), true)
  | .mpl_hint => some (st.add_code_block "%matplotlib inline", true)
  | k =>
    match mdVisit k ch st.md with
    | none => none
    | some (md1, skip) => some ({ st with md := md1 }, skip)

/-- Depart actions of `doctree2nb.Translator`: only
`depart_nbplot_rendered` is its own; the rest inherit. -/
def nbDepart (k : NodeKind) (st : NbState) : Option NbState :=
  match k with
  | .nbplot_rendered => some { st with in_nbplot := false }
  | k =>
    match mdDepart k st.md with
    | none => none
    | some md1 => some { st with md := md1 }

mutual
/-- `document.walkabout` driving `doctree2nb.Translator`. -/
def nbWalk : Node → NbState → Option NbState
  | .mk k ch, st =>
    match nbVisit k ch st with
    | none => none
    | some (st1, true) => some st1
    | some (st1, false) =>
      match nbWalkList ch st1 with
      | none => none
      | some st2 => nbDepart k st2

/-- Walk a child list in document order. -/
def nbWalkList : NodeList → NbState → Option NbState
  | .nil, st => some st
  | .cons n ns, st =>
    match nbWalk n st with
    | none => none
    | some st1 => nbWalkList ns st1
end

/-! ## Definitions worded after the design document

These follow the design text's own words and are compared against the
source embedding above; see the theorems below. -/

/-- Materialisation of an indentation context as the design document
words it: concatenate the content into one string and split into lines
preserving terminators; no lines, nothing; otherwise the first line gets
the first-line prefix, every later line gets the continuation prefix
unless it contains only whitespace, in which case a bare line break with
no prefix is emitted; the assembled text is one fragment. -/
def materializeSpec (first_pfx pfx : String) (content : List String) : List String :=
  match splitlinesKeep (String.join content) with
  | [] => []
  | l0 :: rest =>
    [(first_pfx ++ l0) ++ String.join (rest.map (fun line =>
        if line.toList.all isPySpace then "\n" else pfx ++ line))]

/-- Finalisation cleanup as the design document words it: drop a single
trailing fragment from a region list exactly when that fragment is a
bare line break. -/
def dropLastBareEolSpec (L : List String) : List String :=
  if L.getLast? = some "\n" then L.dropLast else L

/-- One match's contribution as the design document words it: width to
strip from each source line is the example's leading indentation plus
the primary-prompt marker's length plus one space. -/
def exampleSourceSpec (srcLines : List String) : String :=
  String.intercalate "\n"
    ((pySplitlines (String.intercalate "\n" srcLines)).map
      (fun L => L.drop
        (((srcLines.headD "").toList.takeWhile (· = ' ')).length + (">>>".length + 1))))

/-- `parse_doctest` as the design document words it. -/
def parse_doctest_spec (doctest_txt : String) : String :=
  String.intercalate "\n"
    ((findExamples (splitNl (dedent (expandtabs doctest_txt)))).map exampleSourceSpec)

/-! ## Concrete inputs used by the theorems -/

/-- Number of hash marks in a string (the heading marker's weight). -/
def countHashes (s : String) : Nat :=
  s.data.count '#'

/-- The fragments `visit_title` emits on a fresh translator whose section
level has been set to `d`; at `d ≥ 1` this is the heading marker. -/
def markerAt (d : Int) : String :=
  String.join (MdState.visit_title { initMd with section_level := d } "t").body

/-- A flat bullet-list item: `list_item` holding one `paragraph` holding
one text node (the shape docutils parses `* a` into). -/
def flatItem (s : String) : Node :=
  .mk .list_item (NodeList.ofList [.mk .paragraph (NodeList.ofList [.mk (.text s) .nil])])

/-- A single unordered list with the three flat items a, b, c. -/
def c4tree : Node :=
  .mk .bullet_list (NodeList.ofList [flatItem "a", flatItem "b", flatItem "c"])

/-- A literal block (no classes) holding one text node. -/
def litBlock (s : String) : Node :=
  .mk (.literal_block []) (NodeList.ofList [.mk (.text s) .nil])

/-- An nbplot-rendered region holding two literal blocks. -/
def c7tree : Node :=
  .mk .nbplot_rendered (NodeList.ofList [litBlock "code1", litBlock "code2"])

/-- The notebook translator state after walking `c7tree`. -/
def c7result : NbState :=
  { md := { initMd with body := ["```\n", "code2", "\n", "```\n\n"] },
    in_nbplot := false, cells := [Cell.code "code1"] }

/-! ## Helper lemmas -/

theorem stringJoinCons (s : String) (l : List String) :
    String.join (s :: l) = s ++ String.join l := by
  apply String.ext
  simp [String.data_join]

theorem stringJoinAppend (a b : List String) :
    String.join (a ++ b) = String.join a ++ String.join b := by
  apply String.ext
  simp [String.data_join]

theorem stringJoinSingleton (s : String) : String.join [s] = s := by
  apply String.ext
  simp [String.data_join]

theorem pyStripL_eq_nil_iff (cs : List Char) :
    pyStripL cs = [] ↔ cs.all isPySpace = true := by
  simp only [pyStripL, List.reverse_eq_nil_iff, List.dropWhile_eq_nil_iff, List.mem_reverse,
    List.all_eq_true]
  constructor
  · intro h x hx
    have hx2 : x ∈ cs.takeWhile isPySpace ++ cs.dropWhile isPySpace := by
      rw [List.takeWhile_append_dropWhile]
      exact hx
    rcases List.mem_append.1 hx2 with h1 | h2
    · exact List.mem_takeWhile_imp h1
    · exact h x h2
  · intro h x hx
    exact h x ((List.dropWhile_sublist _).subset hx)

theorem pyStrip_eq_empty_iff (s : String) :
    pyStrip s = "" ↔ s.toList.all isPySpace = true := by
  rw [pyStrip, String.ext_iff]
  exact pyStripL_eq_nil_iff _

theorem write_eq_materializeSpec (lv : IndentLevel) :
    lv.write = materializeSpec lv.first_pfx lv.pfx lv.content := by
  have hfun : (fun line => if pyStrip line = "" then "\n" else lv.pfx ++ line) =
      (fun line => if line.toList.all isPySpace then "\n" else lv.pfx ++ line) := by
    funext line
    by_cases h : pyStrip line = ""
    · rw [if_pos h, if_pos ((pyStrip_eq_empty_iff line).1 h)]
    · rw [if_neg h, if_neg (fun hh => h ((pyStrip_eq_empty_iff line).2 hh))]
  show (match splitlinesKeep (String.join lv.content) with
    | [] => []
    | l0 :: rest =>
      [String.join ((lv.first_pfx ++ l0) ::
        rest.map (fun line => if pyStrip line = "" then "\n" else lv.pfx ++ line))]) =
    materializeSpec lv.first_pfx lv.pfx lv.content
  unfold materializeSpec
  cases splitlinesKeep (String.join lv.content) with
  | nil => rfl
  | cons l0 rest =>
    show [String.join ((lv.first_pfx ++ l0) ::
        rest.map (fun line => if pyStrip line = "" then "\n" else lv.pfx ++ line))] =
      [lv.first_pfx ++ l0 ++
        String.join (rest.map (fun line => if line.toList.all isPySpace then "\n" else lv.pfx ++ line))]
    rw [stringJoinCons, hfun]

theorem markerAt_eq (d : Nat) (hd : 1 ≤ d) :
    markerAt (d : Int) = String.mk (List.replicate (d + 1) '#') ++ " " := by
  have hne : ¬((d : Int) = 0) := by
    simp only [Int.natCast_eq_zero]
    omega
  have ht : ((d : Int) + 1).toNat = d + 1 := by omega
  simp [markerAt, MdState.visit_title, MdState.add, MdState.addTo, initMd, hne, ht,
    stringJoinSingleton]

theorem countHashes_marker (n : Nat) :
    countHashes (String.mk (List.replicate n '#') ++ " ") = n := by
  simp [countHashes, List.count_append, List.count_replicate]

theorem exampleSource_eq_spec (srcLines : List String) :
    exampleSource srcLines = exampleSourceSpec srcLines := by
  have h4 : (">>>".length + 1) = 4 := by decide
  simp only [exampleSource, exampleSourceSpec, h4]

/-! ## The claims -/

/-- C1: popping an indentation context (`finish_level`, which calls
`IndentLevel.write`) materialises it: the content fragments are joined
into one string and split into lines preserving terminators; no lines
means nothing is appended to the target; otherwise the first line gets
`first_prefix`, later lines get `prefix` unless whitespace-only, which
become bare line breaks; the join is appended to the target (the level
below, or the body region) as one fragment. -/
theorem C1_finish_level_materializes (st : MdState) (lv : IndentLevel)
    (rest : List IndentLevel) (h : st.indent_levels = lv :: rest) :
    lv.write = materializeSpec lv.first_pfx lv.pfx lv.content ∧
    (rest = [] → st.finish_level =
      some { st with indent_levels := [],
                     body := st.body ++ materializeSpec lv.first_pfx lv.pfx lv.content }) ∧
    (∀ lv2 rest2, rest = lv2 :: rest2 → st.finish_level =
      some { st with indent_levels :=
        { lv2 with content :=
            lv2.content ++ materializeSpec lv.first_pfx lv.pfx lv.content } :: rest2 }) := by
  refine ⟨write_eq_materializeSpec lv, ?_, ?_⟩
  · intro hr
    subst hr
    unfold MdState.finish_level
    rw [h, ← write_eq_materializeSpec lv]
  · intro lv2 rest2 hr
    subst hr
    unfold MdState.finish_level
    rw [h, ← write_eq_materializeSpec lv]

/-- Witness for C1 at a concrete block-quote-shaped level. -/
theorem C1_witness :
    ({ initMd with indent_levels := [⟨"> ", "> ", ["x", "\n"]⟩] } : MdState).indent_levels =
        (⟨"> ", "> ", ["x", "\n"]⟩ : IndentLevel) :: [] ∧
    (IndentLevel.write ⟨"> ", "> ", ["x", "\n"]⟩ =
        materializeSpec "> " "> " ["x", "\n"] ∧
      MdState.finish_level { initMd with indent_levels := [⟨"> ", "> ", ["x", "\n"]⟩] } =
        some { ({ initMd with indent_levels := [⟨"> ", "> ", ["x", "\n"]⟩] } : MdState) with
               indent_levels := [],
               body := ({ initMd with
                 indent_levels := [⟨"> ", "> ", ["x", "\n"]⟩] } : MdState).body ++
                   materializeSpec "> " "> " ["x", "\n"] }) :=
  ⟨rfl,
    (C1_finish_level_materializes
      { initMd with indent_levels := [⟨"> ", "> ", ["x", "\n"]⟩] }
      ⟨"> ", "> ", ["x", "\n"]⟩ [] rfl).1,
    (C1_finish_level_materializes
      { initMd with indent_levels := [⟨"> ", "> ", ["x", "\n"]⟩] }
      ⟨"> ", "> ", ["x", "\n"]⟩ [] rfl).2.1 rfl⟩

/-- C2 counterexample: the claim says the heading marker weight is
`min(depth + 1, max_heading_weight)`, never exceeding the configured
maximum.  The source applies no cap at all (and has no such
configuration); Markdown's maximum heading weight is 6, yet at depth 6
`visit_title` emits a marker of weight 7 = depth + 1, not
`min(6 + 1, 6) = 6` - and likewise past any other finite maximum. -/
theorem C2_counterexample :
    countHashes (markerAt (6 : Int)) = 7 ∧
    countHashes (markerAt (6 : Int)) ≠ min (6 + 1) 6 := by
  exact ⟨by decide, by decide⟩

/-- C2 amended: at section depth `d ≥ 1`, `visit_title` appends the
marker of `d + 1` hash marks followed by a space to the current output
(here: the body, with no indentation context active); the weight is
exactly `d + 1`, with no maximum applied. -/
theorem C2_heading_weight (st : MdState) (d : Int) (h1 : 1 ≤ d)
    (hsec : st.section_level = d) (hind : st.indent_levels = []) (t : String) :
    (st.visit_title t).body =
      st.body ++ [String.mk (List.replicate (d + 1).toNat '#') ++ " "] ∧
    countHashes (String.mk (List.replicate (d + 1).toNat '#') ++ " ") = (d + 1).toNat := by
  constructor
  · unfold MdState.visit_title
    rw [hsec, if_neg (by omega)]
    unfold MdState.add MdState.addTo
    rw [hind]
  · exact countHashes_marker _

/-- Witness for C2 amended at depth 2: the marker is `### `, weight 3. -/
theorem C2_witness :
    (1 ≤ (2 : Int) ∧
      ({ initMd with section_level := 2 } : MdState).section_level = 2 ∧
      ({ initMd with section_level := 2 } : MdState).indent_levels = []) ∧
    (({ initMd with section_level := 2 } : MdState).visit_title "t").body =
        ({ initMd with section_level := 2 } : MdState).body ++
          [String.mk (List.replicate ((2 : Int) + 1).toNat '#') ++ " "] ∧
      countHashes (String.mk (List.replicate ((2 : Int) + 1).toNat '#') ++ " ") =
        ((2 : Int) + 1).toNat :=
  ⟨⟨by decide, rfl, rfl⟩,
    C2_heading_weight { initMd with section_level := 2 } 2 (by decide) rfl rfl "t"⟩

/-- C3 counterexample: the claim says a code cell is appended if and
only if the extracted source is non-empty.  `visit_doctest_block` guards
on the stripped raw block text instead: for the block text `hello`
(no prompts anywhere) the extracted source is empty, yet a code cell
holding the empty string is appended. -/
theorem C3_counterexample :
    parse_doctest "hello" = "" ∧
    nbWalk (.mk .doctest_block (.cons (.mk (.text "hello") .nil) .nil)) initNb =
      some { initNb with cells := [Cell.code ""] } := by
  exact ⟨by decide, by decide⟩

/-- C3 amended: on a transcript block the notebook assembler appends a
code cell if and only if the block's stripped raw text is non-empty; the
cell holds the transcript parser's extraction of that text, which may
itself be empty. -/
theorem C3_doctest_cell_iff_raw (ch : NodeList) (st : NbState) :
    nbWalk (.mk .doctest_block ch) st =
      some (if pyStrip (astextJoin (childSep .doctest_block) ch) = "" then st
            else st.add_code_block
              (parse_doctest (pyStrip (astextJoin (childSep .doctest_block) ch)))) := by
  by_cases h : pyStrip (astextJoin (childSep .doctest_block) ch) = "" <;>
    simp [nbWalk, nbVisit, h]

/-- C4 counterexample: each flat item holds a paragraph, and
`depart_paragraph` writes a blank line inside the item's indentation
context, so the rendered list is `* a`, blank, `* b`, blank, `* c`,
blank - not three adjacent lines. -/
theorem C4_counterexample :
    mdRender c4tree = some "* a\n\n* b\n\n* c\n\n" ∧
    ("* a\n\n* b\n\n* c\n\n" : String) ≠ "* a\n* b\n* c" ∧
    ("* a\n\n* b\n\n* c\n\n" : String) ≠ "* a\n* b\n* c\n" := by
  exact ⟨by decide, by decide, by decide⟩

/-- C4 amended: the three-item unordered list renders as the lines
`* a`, `* b`, `* c`, each followed by one blank line (the paragraph
separator emitted inside each item), including a trailing blank line. -/
theorem C4_blank_line_separated :
    (mdRender c4tree).map splitlinesKeep =
      some ["* a\n", "\n", "* b\n", "\n", "* c\n", "\n"] := by
  decide

/-- C5: `parse_doctest` strips each source line by the example's leading
indentation plus the prompt width (len('>>>') + 1 = 4), preserving
deeper indentation, discards every expected-output region, and joins all
matches' source lines with single line feeds; on
`">>> x = 1\n>>> x\n1\n"` it yields `"x = 1\nx"` (the output line `1`
discarded, as the same result on the input without it shows). -/
theorem C5_parse_doctest :
    (∀ txt, parse_doctest txt = parse_doctest_spec txt) ∧
    parse_doctest ">>> x = 1\n>>> x\n1\n" = "x = 1\nx" ∧
    parse_doctest ">>> x = 1\n>>> x\n" = "x = 1\nx" ∧
    parse_doctest ">>> if x:\n...     y = 2\nout\n" = "if x:\n    y = 2" := by
  refine ⟨fun txt => ?_, by decide, by decide, by decide⟩
  simp only [parse_doctest, parse_doctest_spec]
  rw [show exampleSource = exampleSourceSpec from funext exampleSource_eq_spec]

/-- C6: an unrecognised node kind is warned about exactly once per
translator instance and its subtree is skipped; a document holding the
same unknown kind twice renders without failing, adds exactly one
warning for that kind, and leaves every other part of the state (body
included - the unknown nodes' children are never visited) unchanged. -/
theorem C6_unknown_warn_once (k : String) (ch1 ch2 : NodeList) (st : MdState)
    (hk : k ∉ st.warned) :
    mdWalk (.mk .document (.cons (.mk (.unknown k) ch1)
        (.cons (.mk (.unknown k) ch2) .nil))) st =
      some { st with warnings := st.warnings ++ [warnMsg k],
                     warned := st.warned ++ [k] } := by
  simp [mdWalk, mdWalkList, mdVisit, mdDepart, MdState.unknown_visit, kindName, hk,
    List.mem_append]

/-- Witness for C6: a fresh translator, the unknown kind `tip` appearing
twice (once with a text child that must not surface in the output). -/
theorem C6_witness :
    ("tip" ∉ initMd.warned) ∧
    mdWalk (.mk .document (.cons
        (.mk (.unknown "tip") (.cons (.mk (.text "GONE") .nil) .nil))
        (.cons (.mk (.unknown "tip") .nil) .nil))) initMd =
      some { initMd with warnings := initMd.warnings ++ [warnMsg "tip"],
                         warned := initMd.warned ++ ["tip"] } :=
  ⟨by decide, C6_unknown_warn_once "tip" (.cons (.mk (.text "GONE") .nil) .nil) .nil initMd
    (by decide)⟩

/-- C7 counterexample: the claim says every literal block inside a
plotted-output region becomes a code cell with no fenced block.  For a
region holding two literal blocks, only the first becomes a code cell;
the second is rendered as a fenced Markdown block, because
`add_code_block`'s flush resets `_in_nbplot`. -/
theorem C7_counterexample :
    nbWalk c7tree initNb = some c7result ∧
    Cell.code "code2" ∉ c7result.cells ∧
    "```\n" ∈ c7result.md.body := by
  exact ⟨by decide, by decide, by decide⟩

/-- C7 amended: a literal block seen while `_in_nbplot` is set becomes a
code cell, but appending a code cell resets the translator state,
clearing `_in_nbplot`; hence only the first literal block of a
plotted-output region becomes a code cell and later ones in the same
region fall back to fenced rendering. -/
theorem C7_first_block_only (st0 : NbState) (classes0 : List String) (ch0 : NodeList)
    (hplot : st0.in_nbplot = true) :
    nbVisit (.literal_block classes0) ch0 st0 =
      some (st0.add_code_block (astextJoin (childSep (.literal_block classes0)) ch0), true) ∧
    (∀ st txt, (NbState.add_code_block st txt).in_nbplot = false) ∧
    nbWalk c7tree initNb = some c7result := by
  refine ⟨by simp [nbVisit, hplot], fun st txt => ?_, by decide⟩
  unfold NbState.add_code_block NbState.flush_text NbState.reset
  by_cases h : pyStrip st.md.astext = "" <;> simp [h]

/-- Witness for C7 amended: a translator state with the flag set. -/
theorem C7_witness :
    ({ initNb with in_nbplot := true } : NbState).in_nbplot = true ∧
    (nbVisit (.literal_block []) .nil { initNb with in_nbplot := true } =
      some (({ initNb with in_nbplot := true } : NbState).add_code_block
        (astextJoin (childSep (.literal_block [])) .nil), true) ∧
    (∀ st txt, (NbState.add_code_block st txt).in_nbplot = false) ∧
    nbWalk c7tree initNb = some c7result) := by
  refine ⟨rfl, ?_⟩
  have h := C7_first_block_only { initNb with in_nbplot := true } [] .nil rfl
  exact ⟨h.1, h.2.1, h.2.2⟩

/-- C8: `flush_text` appends a Markdown cell holding the stripped
accumulated text exactly when that text is non-empty, and in either case
resets the buffer engine (regions, stacks, section counter, docinfo and
the nbplot flag) while keeping the per-instance warning set. -/
theorem C8_flush_text (st : NbState) :
    (st.flush_text).cells = st.cells ++
      (if pyStrip st.md.astext = "" then []
       else [Cell.markdown (pyStrip st.md.astext)]) ∧
    (st.flush_text).md.head = [] ∧
    (st.flush_text).md.body = [] ∧
    (st.flush_text).md.foot = [] ∧
    (st.flush_text).md.section_level = 0 ∧
    (st.flush_text).md.list_prefixes = [] ∧
    (st.flush_text).md.indent_levels = [] ∧
    (st.flush_text).md.docinfo = initDocinfo ∧
    (st.flush_text).in_nbplot = false ∧
    (st.flush_text).md.warned = st.md.warned := by
  unfold NbState.flush_text NbState.reset resetMd
  by_cases h : pyStrip st.md.astext = "" <;> simp [h]

/-- C9: finalisation drops one trailing fragment from each of the three
region lists exactly when that fragment is a bare line break, then
returns head, body and foot concatenated in that order with nothing
inserted between them. -/
theorem C9_astext_regions (st : MdState) :
    st.astext = String.join (dropLastBareEolSpec st.head) ++
      String.join (dropLastBareEolSpec st.body) ++
      String.join (dropLastBareEolSpec st.foot) := by
  have hd : ∀ L, dropTrailingEol L = dropLastBareEolSpec L := by
    intro L
    unfold dropTrailingEol dropLastBareEolSpec
    cases hL : L.getLast? with
    | none =>
      have : ¬(none = some "\n") := by simp
      simp [this]
    | some s =>
      by_cases hs : s = "\n" <;> simp [hs]
  unfold MdState.astext MdState.drop_trailing_eols
  simp [hd, stringJoinAppend, String.append_assoc]

/-- C10: a comment node makes the renderer append
`"<!-- " + text + " -->"` plus a line break to the current output and
skip the comment's children, recording no unsupported-kind warning. -/
theorem C10_comment (ch : NodeList) (st : MdState) :
    mdWalk (.mk .comment ch) st =
      some (st.add ("<!-- " ++ astextJoin (childSep .comment) ch ++ " -->\n")) ∧
    (st.add ("<!-- " ++ astextJoin (childSep .comment) ch ++ " -->\n")).warned = st.warned ∧
    (st.add ("<!-- " ++ astextJoin (childSep .comment) ch ++ " -->\n")).warnings =
      st.warnings := by
  refine ⟨by simp [mdWalk, mdVisit], ?_, ?_⟩ <;>
  · unfold MdState.add MdState.addTo
    rcases hsl : st.indent_levels with _ | ⟨lv, rest⟩ <;> simp [hsl]
